import Mathlib

/-
Shallow embedding of the concurrent employee system in src/unnamed/part_002
(package main: EmployeeSystem with a mutex-protected record store and a
selfLearning background goroutine fed over a buffered channel).

Modelling conventions:
- Go float64 fields are modelled as exact rationals.
- Go maps become association lists with first-match lookup (mapLookup) and
  replace-or-append insertion (mapInsert), matching unique-key map semantics.
- time.Now() is an abstract tick passed in as a Nat parameter.
- The buffered learning channel is modelled as a queue (List Employee) plus a
  Bool flag queueFull abstracting whether the select send succeeds: in
  AddEmployee the send races a 100ms timeout (lines 141-145), in
  UpdatePerformance it has a default branch (lines 206-210); in both, a full
  channel drops the event and the operation still returns nil.
- The done channel and the cancellable context become two Bool fields:
  doneClosed (close(es.done) in Shutdown, line 226) and ctxCancelled
  (es.ctx cancellation; note the source never calls es.cancel).
- Closing an already-closed channel panics in Go; shutdown therefore returns
  Except GoPanic.
-/

namespace EmployeeSys

/-- Employee record, src/unnamed/part_002 lines 28-35. -/
structure Employee where
  id : Int
  name : String
  position : String
  salary : ℚ
  performance : ℚ
  lastUpdated : Nat
  deriving DecidableEq, Repr

/-- Per-position aggregate snapshot, src/unnamed/part_002 lines 21-26. -/
structure PositionStats where
  avgPerformance : ℚ
  employeeCount : Nat
  totalSalary : ℚ
  lastUpdated : Nat
  deriving DecidableEq, Repr

/-- The error values of src/unnamed/part_002 lines 48-56, together with the
anonymous fmt.Errorf value produced by validateSalary (line 92), which is a
distinct error value from the declared ErrInvalidSalary (line 54). -/
inductive GoErr where
  | employeeNotFound
  | invalidID
  | duplicateID
  | invalidName
  | invalidPositionMsg
  | invalidSalaryDeclared
  | invalidRating
  | salaryRangeMsg
  deriving DecidableEq, Repr

/-- Go runtime faults relevant here: close of an already-closed channel. -/
inductive GoPanic where
  | closeOfClosedChannel
  deriving DecidableEq, Repr

/-- First-match association-list lookup: the observable content of a Go map. -/
def mapLookup {κ α : Type} [DecidableEq κ] (k : κ) : List (κ × α) → Option α
  | [] => none
  | p :: rest => if k = p.1 then some p.2 else mapLookup k rest

/-- Replace the first binding of k, or append one: Go map assignment m[k] = v. -/
def mapInsert {κ α : Type} [DecidableEq κ] (k : κ) (v : α) : List (κ × α) → List (κ × α)
  | [] => [(k, v)]
  | p :: rest => if k = p.1 then (k, v) :: rest else p :: mapInsert k v rest

/-- State of an EmployeeSystem value, src/unnamed/part_002 lines 37-46. -/
structure EmployeeSystem where
  employees : List (Int × Employee)
  performance : List (Int × List ℚ)
  positionStats : List (String × PositionStats)
  queue : List Employee
  doneClosed : Bool
  ctxCancelled : Bool
  deriving DecidableEq, Repr

/-- MinSalary constant, line 17. -/
def MinSalary : ℚ := 20000

/-- MaxSalary constant, line 18. -/
def MaxSalary : ℚ := 2000000

/-- strings.TrimSpace on the rune sequence of a string: drop leading and
trailing whitespace. -/
def trimChars (l : List Char) : List Char :=
  ((l.dropWhile Char.isWhitespace).reverse.dropWhile Char.isWhitespace).reverse

/-- validateName, lines 77-88: trim, length 2..50, every rune a letter or a
space (Go counts bytes in the length check and runes in the loop; both are
modelled as Lean chars, which agree on ASCII names). -/
def validateName (name : String) : Option GoErr :=
  let n := trimChars name.toList
  if n.length < 2 ∨ 50 < n.length then some GoErr.invalidName
  else if n.all fun c => c.isAlpha || c.isWhitespace then none
  else some GoErr.invalidName

/-- validateSalary, lines 90-95: note it returns the freshly formatted
fmt.Errorf value, never the declared ErrInvalidSalary. -/
def validateSalary (salary : ℚ) : Option GoErr :=
  if salary < MinSalary ∨ MaxSalary < salary then some GoErr.salaryRangeMsg else none

/-- validateRating, lines 97-102. -/
def validateRating (rating : ℚ) : Option GoErr :=
  if rating < 0 ∨ 5 < rating then some GoErr.invalidRating else none

/-- NewEmployeeSystem, lines 104-117: empty maps, empty channel, done open,
context not cancelled. -/
def newEmployeeSystem : EmployeeSystem :=
  { employees := []
    performance := []
    positionStats := []
    queue := []
    doneClosed := false
    ctxCancelled := false }

/-- AddEmployee, lines 119-147. Every operation returns the result together
with the state at the point of return, so that early error returns expose
whether any mutation preceded them. queueFull abstracts the select on
learningChan racing time.After (lines 141-145): when full, the event is
dropped with a warning and the call still succeeds. -/
def addEmployee (es : EmployeeSystem) (emp : Employee) (now : Nat) (queueFull : Bool) :
    Option GoErr × EmployeeSystem :=
  if emp.id < 100 then (some GoErr.invalidID, es)
  else
    match validateName emp.name with
    | some e => (some e, es)
    | none =>
      match validateSalary emp.salary with
      | some e => (some e, es)
      | none =>
        if (mapLookup emp.id es.employees).isSome then (some GoErr.duplicateID, es)
        else
          let emp1 := { emp with lastUpdated := now }
          let es1 := { es with
            employees := mapInsert emp.id emp1 es.employees
            performance := mapInsert emp.id [] es.performance }
          if queueFull then (none, es1)
          else (none, { es1 with queue := es1.queue ++ [emp1] })

/-- UpdateEmployee, lines 149-170: same validation as AddEmployee, NotFound if
absent, replaces the record, does not touch the performance map, no publish. -/
def updateEmployee (es : EmployeeSystem) (emp : Employee) (now : Nat) :
    Option GoErr × EmployeeSystem :=
  if emp.id < 100 then (some GoErr.invalidID, es)
  else
    match validateName emp.name with
    | some e => (some e, es)
    | none =>
      match validateSalary emp.salary with
      | some e => (some e, es)
      | none =>
        if (mapLookup emp.id es.employees).isSome then
          (none, { es with
            employees := mapInsert emp.id { emp with lastUpdated := now } es.employees })
        else (some GoErr.employeeNotFound, es)

/-- The zero Employee value returned alongside ErrEmployeeNotFound. -/
def zeroEmployee : Employee :=
  { id := 0, name := "", position := "", salary := 0, performance := 0, lastUpdated := 0 }

/-- GetEmployee, lines 172-181: read-only, returns a copy of the record. -/
def getEmployee (es : EmployeeSystem) (id : Int) : Option GoErr × Employee :=
  match mapLookup id es.employees with
  | some emp => (none, emp)
  | none => (some GoErr.employeeNotFound, zeroEmployee)

/-- UpdatePerformance, lines 183-212: validate rating, NotFound if absent,
append to history, recompute the mean, store the updated record, then a
non-blocking send on learningChan (lines 206-210). -/
def updatePerformance (es : EmployeeSystem) (id : Int) (rating : ℚ) (now : Nat)
    (queueFull : Bool) : Option GoErr × EmployeeSystem :=
  if rating < 0 ∨ 5 < rating then (some GoErr.invalidRating, es)
  else
    match mapLookup id es.employees with
    | none => (some GoErr.employeeNotFound, es)
    | some emp =>
      let hist := ((mapLookup id es.performance).getD []) ++ [rating]
      let emp1 := { emp with
        performance := hist.sum / (hist.length : ℚ)
        lastUpdated := now }
      let es1 := { es with
        performance := mapInsert id hist es.performance
        employees := mapInsert id emp1 es.employees }
      if queueFull then (none, es1)
      else (none, { es1 with queue := es1.queue ++ [emp1] })

/-- The history after the append of line 196 (a missing key reads as nil). -/
def ratedHist (es : EmployeeSystem) (id : Int) (rating : ℚ) : List ℚ :=
  ((mapLookup id es.performance).getD []) ++ [rating]

/-- The record as rewritten by UpdatePerformance, lines 198-204: performance
becomes the mean of the new history, LastUpdated the current tick. -/
def ratedEmp (es : EmployeeSystem) (id : Int) (rating : ℚ) (now : Nat) (emp : Employee) :
    Employee :=
  { emp with
    performance := (ratedHist es id rating).sum / ((ratedHist es id rating).length : ℚ)
    lastUpdated := now }

/-- GetAllEmployees, lines 214-223: read-only snapshot of all records. -/
def getAllEmployees (es : EmployeeSystem) : List Employee :=
  es.employees.map Prod.snd

/-- Shutdown, lines 225-227: close(es.done). Go panics on closing an already
closed channel, and Shutdown does nothing else - in particular it does not
cancel es.ctx. -/
def shutdown (es : EmployeeSystem) : Except GoPanic EmployeeSystem :=
  if es.doneClosed then Except.error GoPanic.closeOfClosedChannel
  else Except.ok { es with doneClosed := true }

/-- The records whose Position equals p, in store order: the loop of
lines 242-248 visits exactly these. -/
def positionMembers (es : EmployeeSystem) (p : String) : List Employee :=
  (es.employees.map Prod.snd).filter fun e => e.position == p

/-- Outcome of one iteration of the selfLearning loop. -/
inductive LearnStep where
  | exited
  | blocked
  | processed (es : EmployeeSystem)
  deriving DecidableEq, Repr

/-- One iteration of selfLearning, lines 229-272: the select exits when the
context is cancelled; otherwise it can only fire on a queued event (blocking
when there is none). A received event recomputes the stats of the event
position over all current records, but writes them back only when count > 0
(lines 250-255). -/
def selfLearningIter (es : EmployeeSystem) (now : Nat) : LearnStep :=
  if es.ctxCancelled then LearnStep.exited
  else
    match es.queue with
    | [] => LearnStep.blocked
    | emp :: rest =>
      let members := positionMembers es emp.position
      let count := members.length
      if 0 < count then
        let stats : PositionStats :=
          { avgPerformance := (members.map fun e => e.performance).sum / (count : ℚ)
            employeeCount := count
            totalSalary := (members.map fun e => e.salary).sum
            lastUpdated := now }
        LearnStep.processed { es with
          queue := rest
          positionStats := mapInsert emp.position stats es.positionStats }
      else LearnStep.processed { es with queue := rest }

/-- The API surface of the system, for quantifying over call sequences. -/
inductive Op where
  | create (emp : Employee) (now : Nat) (queueFull : Bool)
  | update (emp : Employee) (now : Nat)
  | rate (id : Int) (rating : ℚ) (now : Nat) (queueFull : Bool)
  | learn (now : Nat)
  | shutdownCall
  deriving Repr

/-- Apply one operation to the state, keeping the state on error or panic. -/
def applyOp (es : EmployeeSystem) : Op → EmployeeSystem
  | Op.create emp now qf => (addEmployee es emp now qf).2
  | Op.update emp now => (updateEmployee es emp now).2
  | Op.rate id r now qf => (updatePerformance es id r now qf).2
  | Op.learn now =>
    match selfLearningIter es now with
    | LearnStep.processed es1 => es1
    | _ => es
  | Op.shutdownCall =>
    match shutdown es with
    | Except.ok es1 => es1
    | Except.error _ => es

/-- Run a sequence of operations from a starting state. -/
def runOps (es : EmployeeSystem) (ops : List Op) : EmployeeSystem :=
  ops.foldl applyOp es

/-- Mean of a rating history: 0 while empty (the Go zero value), else sum/len. -/
def meanOf (l : List ℚ) : ℚ := if l.isEmpty then 0 else l.sum / (l.length : ℚ)

/-- The per-identifier performance invariant over the two maps: every stored
record has Performance equal to the mean of the history of its identifier. -/
def perfInvOf (empl : List (Int × Employee)) (perf : List (Int × List ℚ)) : Bool :=
  (empl.map Prod.fst).all fun id =>
    match mapLookup id empl with
    | some emp => emp.performance == meanOf ((mapLookup id perf).getD [])
    | none => true

/-- The invariant instantiated to a system state. -/
def perfInvB (es : EmployeeSystem) : Bool := perfInvOf es.employees es.performance

/-- Classification of errors as the InvalidArgument class of the error taxonomy. -/
def isInvalidArgument : Option GoErr → Bool
  | some GoErr.invalidID => true
  | some GoErr.invalidName => true
  | some GoErr.invalidPositionMsg => true
  | some GoErr.invalidSalaryDeclared => true
  | some GoErr.invalidRating => true
  | some GoErr.salaryRangeMsg => true
  | _ => false

/-- Lock-relevant events of one operation, in program order. -/
inductive LockEv where
  | lockAcquire
  | mapWrite
  | publishAttempt
  | lockRelease
  deriving DecidableEq, Repr

/-- Whether a publish attempt happens while the lock is held, scanning the
event list with the current lock state. -/
def publishWhileLocked : List LockEv → Bool → Bool
  | [], _ => false
  | LockEv.lockAcquire :: r, _ => publishWhileLocked r true
  | LockEv.lockRelease :: r, _ => publishWhileLocked r false
  | LockEv.publishAttempt :: r, held => held || publishWhileLocked r held
  | LockEv.mapWrite :: r, held => publishWhileLocked r held

/-- Program order of the success path of AddEmployee: mutex.Lock (line 130),
map writes (lines 137-139), the select publish (lines 141-145), then the
deferred mutex.Unlock (line 131) which runs only at return (line 146). -/
def addEmployeeLockTrace : List LockEv :=
  [LockEv.lockAcquire, LockEv.mapWrite, LockEv.publishAttempt, LockEv.lockRelease]

/-- Program order of the success path of UpdatePerformance: mutex.Lock
(line 188), map writes (lines 196-204), the non-blocking select publish
(lines 206-210), then the deferred mutex.Unlock (line 189) at return. -/
def updatePerformanceLockTrace : List LockEv :=
  [LockEv.lockAcquire, LockEv.mapWrite, LockEv.publishAttempt, LockEv.lockRelease]

/-- Concrete records and states used to instantiate the theorems below. -/
def empAnn : Employee :=
  { id := 101, name := "Ann", position := "Lead", salary := 60000, performance := 0
    lastUpdated := 0 }

/-- A record identical to empAnn except for a nonzero Performance field. -/
def empAnnP3 : Employee := { empAnn with performance := 3 }

/-- A record with a positive identifier below 100 and otherwise valid fields. -/
def empFifty : Employee := { empAnn with id := 50 }

/-- A record whose salary is below MinSalary and otherwise valid. -/
def empCheap : Employee :=
  { id := 100, name := "Bob", position := "Dev", salary := 10000, performance := 0
    lastUpdated := 0 }

/-- The store right after Create(101, Ann, Lead, 60000). -/
def esAnn : EmployeeSystem := (addEmployee newEmployeeSystem empAnn 0 false).2

/-- A state whose done channel is already closed. -/
def esShut : EmployeeSystem := { newEmployeeSystem with doneClosed := true }

/-- An event for position A queued before the only record moved to position B,
with a stale statistics snapshot already stored for position A. -/
def empEvA : Employee :=
  { id := 100, name := "Ava", position := "A", salary := 60000, performance := 0
    lastUpdated := 0 }

/-- The same record after an update moved it to position B. -/
def empStoreB : Employee := { empEvA with position := "B", lastUpdated := 1 }

/-- A prior statistics snapshot for position A. -/
def staleStats : PositionStats :=
  { avgPerformance := 5, employeeCount := 3, totalSalary := 100, lastUpdated := 0 }

/-- State in which the position of the queued event no longer has any members. -/
def esC6 : EmployeeSystem :=
  { employees := [(100, empStoreB)]
    performance := [(100, [])]
    positionStats := [("A", staleStats)]
    queue := [empEvA]
    doneClosed := false
    ctxCancelled := false }

/-- State with one Lead record and its own change event still queued. -/
def esC6w : EmployeeSystem :=
  { employees := [(101, empAnn)]
    performance := [(101, [])]
    positionStats := []
    queue := [empAnn]
    doneClosed := false
    ctxCancelled := false }

theorem mapLookup_mapInsert_self {κ α : Type} [DecidableEq κ] (k : κ) (v : α)
    (l : List (κ × α)) : mapLookup k (mapInsert k v l) = some v := by
  induction l with
  | nil => simp [mapInsert, mapLookup]
  | cons p rest ih =>
    by_cases h : k = p.1
    · simp [mapInsert, mapLookup, h]
    · simp [mapInsert, mapLookup, h, ih]

theorem mapLookup_mapInsert_ne {κ α : Type} [DecidableEq κ] {k j : κ} (v : α)
    (l : List (κ × α)) (hne : j ≠ k) :
    mapLookup j (mapInsert k v l) = mapLookup j l := by
  induction l with
  | nil => simp [mapInsert, mapLookup, hne]
  | cons p rest ih =>
    by_cases h : k = p.1
    · subst h
      simp [mapInsert, mapLookup, hne]
    · simp [mapInsert, mapLookup, h, ih]

theorem mem_keys_mapInsert {κ α : Type} [DecidableEq κ] {k j : κ} {v : α}
    {l : List (κ × α)} (h : j ∈ (mapInsert k v l).map Prod.fst) :
    j = k ∨ j ∈ l.map Prod.fst := by
  induction l with
  | nil => simpa [mapInsert] using h
  | cons p rest ih =>
    by_cases hk : k = p.1
    · subst hk
      simp [mapInsert] at h
      rcases h with h | h
      · exact Or.inl h
      · exact Or.inr (by simp [h])
    · simp [mapInsert, hk] at h
      rcases h with h | h
      · exact Or.inr (by simp [h])
      · rcases ih (by simpa using h) with h1 | h1
        · exact Or.inl h1
        · exact Or.inr (by simp [h1])

theorem validateName_eq_some {n : String} {e : GoErr}
    (h : validateName n = some e) : e = GoErr.invalidName := by
  unfold validateName at h
  dsimp only at h
  split at h
  · exact (Option.some.injEq _ _ ▸ h).symm
  · split at h
    · cases h
    · exact (Option.some.injEq _ _ ▸ h).symm

theorem validateSalary_none_iff (s : ℚ) :
    validateSalary s = none ↔ MinSalary ≤ s ∧ s ≤ MaxSalary := by
  unfold validateSalary
  split <;> rename_i h
  · constructor
    · intro hc; cases hc
    · intro hc
      rcases h with h | h
      · exact absurd hc.1 (not_le.mpr h)
      · exact absurd hc.2 (not_le.mpr h)
  · push_neg at h
    simp [h.1, h.2]

theorem validateSalary_some_iff (s : ℚ) (e : GoErr) :
    validateSalary s = some e ↔ (s < MinSalary ∨ MaxSalary < s) ∧ e = GoErr.salaryRangeMsg := by
  unfold validateSalary
  split <;> rename_i h
  · simp [h, eq_comm]
  · simp [h]

theorem addEmployee_fst (es : EmployeeSystem) (emp : Employee) (now : Nat) (qf : Bool) :
    (addEmployee es emp now qf).1 =
      if emp.id < 100 then some GoErr.invalidID
      else if (validateName emp.name).isSome then validateName emp.name
      else if emp.salary < MinSalary ∨ MaxSalary < emp.salary then some GoErr.salaryRangeMsg
      else if (mapLookup emp.id es.employees).isSome then some GoErr.duplicateID
      else none := by
  unfold addEmployee
  by_cases hid : emp.id < 100
  · simp [hid]
  · rcases hv : validateName emp.name with _ | e
    · by_cases hs : emp.salary < MinSalary ∨ MaxSalary < emp.salary
      · have hvs : validateSalary emp.salary = some GoErr.salaryRangeMsg :=
          (validateSalary_some_iff _ _).mpr ⟨hs, rfl⟩
        simp [hid, hv, hvs, hs]
      · have hs2 := hs
        push_neg at hs2
        have hvs : validateSalary emp.salary = none :=
          (validateSalary_none_iff _).mpr ⟨hs2.1, hs2.2⟩
        by_cases hd : (mapLookup emp.id es.employees).isSome
        · simp [hid, hv, hvs, hs, hd]
        · cases qf <;> simp [hid, hv, hvs, hs, hd]
    · simp [hid, hv]

theorem addEmployee_snd_of_err (es : EmployeeSystem) (emp : Employee) (now : Nat) (qf : Bool)
    (h : (addEmployee es emp now qf).1 ≠ none) : (addEmployee es emp now qf).2 = es := by
  unfold addEmployee at h ⊢
  by_cases hid : emp.id < 100
  · simp [hid]
  · rcases hv : validateName emp.name with _ | e
    · rcases hvs : validateSalary emp.salary with _ | e2
      · by_cases hd : (mapLookup emp.id es.employees).isSome
        · simp [hid, hv, hvs, hd]
        · exfalso
          apply h
          cases qf <;> simp [hid, hv, hvs, hd]
      · simp [hid, hv, hvs]
    · simp [hid, hv]

theorem addEmployee_snd_of_ok (es : EmployeeSystem) (emp : Employee) (now : Nat) (qf : Bool)
    (h : (addEmployee es emp now qf).1 = none) :
    (addEmployee es emp now qf).2 = { es with
      employees := mapInsert emp.id { emp with lastUpdated := now } es.employees
      performance := mapInsert emp.id [] es.performance
      queue := if qf then es.queue else es.queue ++ [{ emp with lastUpdated := now }] } := by
  unfold addEmployee at h ⊢
  by_cases hid : emp.id < 100
  · simp [hid] at h
  · rcases hv : validateName emp.name with _ | e
    · rcases hvs : validateSalary emp.salary with _ | e2
      · by_cases hd : (mapLookup emp.id es.employees).isSome
        · simp [hid, hv, hvs, hd] at h
        · cases qf <;> simp [hid, hv, hvs, hd]
      · simp [hid, hv, hvs] at h
    · simp [hid, hv] at h

theorem updateEmployee_fst (es : EmployeeSystem) (emp : Employee) (now : Nat) :
    (updateEmployee es emp now).1 =
      if emp.id < 100 then some GoErr.invalidID
      else if (validateName emp.name).isSome then validateName emp.name
      else if emp.salary < MinSalary ∨ MaxSalary < emp.salary then some GoErr.salaryRangeMsg
      else if (mapLookup emp.id es.employees).isSome then none
      else some GoErr.employeeNotFound := by
  unfold updateEmployee
  by_cases hid : emp.id < 100
  · simp [hid]
  · rcases hv : validateName emp.name with _ | e
    · by_cases hs : emp.salary < MinSalary ∨ MaxSalary < emp.salary
      · have hvs : validateSalary emp.salary = some GoErr.salaryRangeMsg :=
          (validateSalary_some_iff _ _).mpr ⟨hs, rfl⟩
        simp [hid, hv, hvs, hs]
      · have hs2 := hs
        push_neg at hs2
        have hvs : validateSalary emp.salary = none :=
          (validateSalary_none_iff _).mpr ⟨hs2.1, hs2.2⟩
        by_cases hd : (mapLookup emp.id es.employees).isSome
        · simp [hid, hv, hvs, hs, hd]
        · simp [hid, hv, hvs, hs, hd]
    · simp [hid, hv]

theorem updateEmployee_snd_of_err (es : EmployeeSystem) (emp : Employee) (now : Nat)
    (h : (updateEmployee es emp now).1 ≠ none) : (updateEmployee es emp now).2 = es := by
  unfold updateEmployee at h ⊢
  by_cases hid : emp.id < 100
  · simp [hid]
  · rcases hv : validateName emp.name with _ | e
    · rcases hvs : validateSalary emp.salary with _ | e2
      · by_cases hd : (mapLookup emp.id es.employees).isSome
        · exfalso
          apply h
          simp [hid, hv, hvs, hd]
        · simp [hid, hv, hvs, hd]
      · simp [hid, hv, hvs]
    · simp [hid, hv]

theorem updateEmployee_snd_of_ok (es : EmployeeSystem) (emp : Employee) (now : Nat)
    (h : (updateEmployee es emp now).1 = none) :
    (updateEmployee es emp now).2 = { es with
      employees := mapInsert emp.id { emp with lastUpdated := now } es.employees } := by
  unfold updateEmployee at h ⊢
  by_cases hid : emp.id < 100
  · simp [hid] at h
  · rcases hv : validateName emp.name with _ | e
    · rcases hvs : validateSalary emp.salary with _ | e2
      · by_cases hd : (mapLookup emp.id es.employees).isSome
        · simp [hid, hv, hvs, hd]
        · simp [hid, hv, hvs, hd] at h
      · simp [hid, hv, hvs] at h
    · simp [hid, hv] at h

theorem updatePerformance_of_badRating (es : EmployeeSystem) (id : Int) (rating : ℚ)
    (now : Nat) (qf : Bool) (h : rating < 0 ∨ 5 < rating) :
    updatePerformance es id rating now qf = (some GoErr.invalidRating, es) := by
  unfold updatePerformance
  simp [h]

theorem updatePerformance_of_absent (es : EmployeeSystem) (id : Int) (rating : ℚ)
    (now : Nat) (qf : Bool) (hr : ¬(rating < 0 ∨ 5 < rating))
    (hm : mapLookup id es.employees = none) :
    updatePerformance es id rating now qf = (some GoErr.employeeNotFound, es) := by
  unfold updatePerformance
  simp [hr, hm]

theorem updatePerformance_of_ok (es : EmployeeSystem) (id : Int) (rating : ℚ)
    (now : Nat) (qf : Bool) (emp : Employee) (hr : ¬(rating < 0 ∨ 5 < rating))
    (hm : mapLookup id es.employees = some emp) :
    updatePerformance es id rating now qf =
      (none, { es with
        performance := mapInsert id (ratedHist es id rating) es.performance
        employees := mapInsert id (ratedEmp es id rating now emp) es.employees
        queue := if qf then es.queue
          else es.queue ++ [ratedEmp es id rating now emp] }) := by
  unfold updatePerformance ratedEmp ratedHist
  cases qf <;> simp [hr, hm]

theorem meanOf_ratedHist (es : EmployeeSystem) (id : Int) (rating : ℚ) :
    meanOf (ratedHist es id rating) =
      (ratedHist es id rating).sum / ((ratedHist es id rating).length : ℚ) := by
  unfold meanOf ratedHist
  simp

theorem perfInvOf_insert_emp (empl : List (Int × Employee)) (perf : List (Int × List ℚ))
    (k : Int) (emp : Employee)
    (hinv : perfInvOf empl perf = true)
    (hperf : emp.performance = meanOf ((mapLookup k perf).getD [])) :
    perfInvOf (mapInsert k emp empl) perf = true := by
  unfold perfInvOf at hinv ⊢
  rw [List.all_eq_true] at hinv ⊢
  intro j hj
  by_cases hjk : j = k
  · subst hjk
    simp [mapLookup_mapInsert_self, hperf]
  · rcases mem_keys_mapInsert hj with h | h
    · exact absurd h hjk
    · have hres := hinv j h
      rw [mapLookup_mapInsert_ne _ _ hjk]
      exact hres

theorem perfInvOf_insert_both (empl : List (Int × Employee)) (perf : List (Int × List ℚ))
    (k : Int) (emp : Employee) (hist : List ℚ)
    (hinv : perfInvOf empl perf = true)
    (hperf : emp.performance = meanOf hist) :
    perfInvOf (mapInsert k emp empl) (mapInsert k hist perf) = true := by
  unfold perfInvOf at hinv ⊢
  rw [List.all_eq_true] at hinv ⊢
  intro j hj
  by_cases hjk : j = k
  · subst hjk
    simp [mapLookup_mapInsert_self, hperf]
  · rcases mem_keys_mapInsert hj with h | h
    · exact absurd h hjk
    · have hres := hinv j h
      rw [mapLookup_mapInsert_ne _ _ hjk, mapLookup_mapInsert_ne _ _ hjk]
      exact hres

/-- C1: the claim says a second Shutdown never faults. The code violates it:
Shutdown is exactly close(es.done) (line 226), and closing an already closed
channel panics in Go, so in every state in which a first Shutdown has
returned, a second Shutdown faults (main even does this on menu choice 6: the
explicit Shutdown of line 409 plus the deferred one of line 308). -/
theorem c1_second_shutdown_faults (es es1 : EmployeeSystem)
    (h : shutdown es = Except.ok es1) :
    shutdown es1 = Except.error GoPanic.closeOfClosedChannel := by
  unfold shutdown at h ⊢
  split at h
  · cases h
  · cases h
    simp

/-- C1 witness: the double Shutdown fault at the concrete initial system. -/
theorem c1_witness :
    shutdown esShut = Except.error GoPanic.closeOfClosedChannel :=
  c1_second_shutdown_faults newEmployeeSystem esShut rfl

theorem selfLearningIter_processed_ctx (es : EmployeeSystem) (now : Nat)
    (es1 : EmployeeSystem) (h : selfLearningIter es now = LearnStep.processed es1) :
    es1.ctxCancelled = es.ctxCancelled := by
  unfold selfLearningIter at h
  split at h
  · cases h
  · split at h
    · cases h
    · dsimp only at h
      split at h
      · cases h
        rfl
      · cases h
        rfl

theorem applyOp_ctxCancelled (es : EmployeeSystem) (op : Op) :
    (applyOp es op).ctxCancelled = es.ctxCancelled := by
  cases op with
  | create emp now qf =>
    show (addEmployee es emp now qf).2.ctxCancelled = es.ctxCancelled
    by_cases h : (addEmployee es emp now qf).1 = none
    · rw [addEmployee_snd_of_ok es emp now qf h]
    · rw [addEmployee_snd_of_err es emp now qf h]
  | update emp now =>
    show (updateEmployee es emp now).2.ctxCancelled = es.ctxCancelled
    by_cases h : (updateEmployee es emp now).1 = none
    · rw [updateEmployee_snd_of_ok es emp now h]
    · rw [updateEmployee_snd_of_err es emp now h]
  | rate id rating now qf =>
    show (updatePerformance es id rating now qf).2.ctxCancelled = es.ctxCancelled
    by_cases hr : rating < 0 ∨ 5 < rating
    · rw [updatePerformance_of_badRating es id rating now qf hr]
    · rcases hm : mapLookup id es.employees with _ | emp
      · rw [updatePerformance_of_absent es id rating now qf hr hm]
      · rw [updatePerformance_of_ok es id rating now qf emp hr hm]
  | learn now =>
    show (match selfLearningIter es now with
      | LearnStep.processed es1 => es1
      | _ => es).ctxCancelled = es.ctxCancelled
    rcases hs : selfLearningIter es now with _ | _ | es1
    · rfl
    · rfl
    · exact selfLearningIter_processed_ctx es now es1 hs
  | shutdownCall =>
    show (match shutdown es with
      | Except.ok es1 => es1
      | Except.error _ => es).ctxCancelled = es.ctxCancelled
    unfold shutdown
    by_cases hd : es.doneClosed
    · rw [if_pos hd]
    · rw [if_neg hd]

theorem runOps_ctxCancelled (ops : List Op) (es : EmployeeSystem) :
    (runOps es ops).ctxCancelled = es.ctxCancelled := by
  induction ops generalizing es with
  | nil => rfl
  | cons op rest ih =>
    show (runOps (applyOp es op) rest).ctxCancelled = es.ctxCancelled
    rw [ih (applyOp es op), applyOp_ctxCancelled]

/-- C3: the claim says the background aggregation task is guaranteed to exit
once shutdown is signalled. The code violates it: Shutdown closes es.done,
but the selfLearning select waits on es.ctx.Done() (line 268), and es.cancel
is never invoked by any operation, so after every call sequence from a fresh
system - Shutdown included - the exit branch of the consumer stays unreachable and
the goroutine never exits. -/
theorem c3_selfLearning_never_exits (ops : List Op) (now : Nat) :
    (runOps newEmployeeSystem ops).ctxCancelled = false ∧
    selfLearningIter (runOps newEmployeeSystem ops) now ≠ LearnStep.exited := by
  have h1 : (runOps newEmployeeSystem ops).ctxCancelled = false :=
    runOps_ctxCancelled ops newEmployeeSystem
  refine ⟨h1, ?_⟩
  unfold selfLearningIter
  rw [h1, if_neg (by simp)]
  rcases hq : (runOps newEmployeeSystem ops).queue with _ | ⟨emp, rest⟩
  · simp
  · dsimp only
    split
    · simp
    · simp

/-- C9 counterexample: in AddEmployee the publish attempt (the select with
100ms timeout, lines 141-145) runs before the deferred Unlock of line 131,
which executes only at return - so the enqueue happens while the exclusive
lock is held, contradicting the claim that it occurs only after release. -/
theorem c9_counterexample : publishWhileLocked addEmployeeLockTrace false = true := by
  decide

/-- C9 amended: in both Create (AddEmployee) and RecordPerformanceRating
(UpdatePerformance) the publish attempt occurs inside the critical section,
because the Unlock is deferred to function return, after the select; in
AddEmployee the lock can thus be held for the full 100ms publish timeout. -/
theorem c9_publish_inside_lock :
    publishWhileLocked addEmployeeLockTrace false = true ∧
    publishWhileLocked updatePerformanceLockTrace false = true := by
  decide

/-- C4 counterexample: empFifty has a positive identifier (50), a valid name,
an in-range salary, and is absent from the empty store, so the claim says
Create succeeds; the code rejects it with ErrInvalidID, because the check on
line 120 is id < 100, not non-positivity. -/
theorem c4_counterexample :
    (0 < empFifty.id ∧ validateName empFifty.name = none ∧
      MinSalary ≤ empFifty.salary ∧ empFifty.salary ≤ MaxSalary ∧
      mapLookup empFifty.id newEmployeeSystem.employees = none) ∧
    (addEmployee newEmployeeSystem empFifty 0 false).1 = some GoErr.invalidID := by
  refine ⟨⟨by decide, by decide, ?_, ?_, rfl⟩, rfl⟩
  · show MinSalary ≤ empFifty.salary
    norm_num [MinSalary, empFifty, empAnn]
  · show empFifty.salary ≤ MaxSalary
    norm_num [MaxSalary, empFifty, empAnn]

/-- C4 amended: Create fails with an InvalidArgument-class error exactly when
the identifier is below 100 (rather than non-positive), the name fails the
length and character-class validation, or the salary is out of range; it
fails with AlreadyExists (ErrDuplicateID) exactly when all those checks pass
and the identifier is already present; otherwise it succeeds. -/
theorem c4_addEmployee_errors (es : EmployeeSystem) (emp : Employee) (now : Nat)
    (qf : Bool) :
    (isInvalidArgument (addEmployee es emp now qf).1 = true ↔
      (emp.id < 100 ∨ validateName emp.name ≠ none ∨
        emp.salary < MinSalary ∨ MaxSalary < emp.salary)) ∧
    ((addEmployee es emp now qf).1 = some GoErr.duplicateID ↔
      (100 ≤ emp.id ∧ validateName emp.name = none ∧ MinSalary ≤ emp.salary ∧
        emp.salary ≤ MaxSalary ∧ (mapLookup emp.id es.employees).isSome = true)) ∧
    ((addEmployee es emp now qf).1 = none ↔
      (100 ≤ emp.id ∧ validateName emp.name = none ∧ MinSalary ≤ emp.salary ∧
        emp.salary ≤ MaxSalary ∧ (mapLookup emp.id es.employees).isSome = false)) := by
  rw [addEmployee_fst]
  by_cases hid : emp.id < 100
  · have hid2 : ¬(100 : Int) ≤ emp.id := not_le.mpr hid
    simp [hid, hid2, isInvalidArgument]
  · have hid2 : (100 : Int) ≤ emp.id := not_lt.mp hid
    rcases hv : validateName emp.name with _ | e
    · by_cases hs : emp.salary < MinSalary ∨ MaxSalary < emp.salary
      · rcases hs with h | h
        · have h2 : ¬ MinSalary ≤ emp.salary := not_le.mpr h
          simp [hid, hid2, hv, h, h2, isInvalidArgument]
        · have h2 : ¬ emp.salary ≤ MaxSalary := not_le.mpr h
          simp [hid, hid2, hv, h, h2, isInvalidArgument]
      · have hs2 := hs
        push_neg at hs2
        have h3 : ¬ emp.salary < MinSalary := not_lt.mpr hs2.1
        have h4 : ¬ MaxSalary < emp.salary := not_lt.mpr hs2.2
        by_cases hd : (mapLookup emp.id es.employees).isSome
        · simp [hid, hid2, hv, h3, h4, hs2.1, hs2.2, hd, isInvalidArgument]
        · simp [hid, hid2, hv, h3, h4, hs2.1, hs2.2, hd, isInvalidArgument]
    · have he := validateName_eq_some hv
      subst he
      simp [hid, hid2, hv, isInvalidArgument]

/-- C5: whenever Create, Update, or RecordPerformanceRating returns an error,
the store state - the employee map, the performance-history map, and with
them the record count - is exactly the state before the call: all validation
and existence checks precede every mutation, so a failed call commits nothing
and a duplicate-identifier Create leaves the original record untouched. -/
theorem c5_error_means_unchanged (es : EmployeeSystem) (emp : Employee) (id : Int)
    (rating : ℚ) (now : Nat) (qf : Bool) (e : GoErr) :
    ((addEmployee es emp now qf).1 = some e → (addEmployee es emp now qf).2 = es) ∧
    ((updateEmployee es emp now).1 = some e → (updateEmployee es emp now).2 = es) ∧
    ((updatePerformance es id rating now qf).1 = some e →
      (updatePerformance es id rating now qf).2 = es) := by
  refine ⟨?_, ?_, ?_⟩
  · intro h
    exact addEmployee_snd_of_err es emp now qf (by simp [h])
  · intro h
    exact updateEmployee_snd_of_err es emp now (by simp [h])
  · intro h
    by_cases hr : rating < 0 ∨ 5 < rating
    · rw [updatePerformance_of_badRating es id rating now qf hr]
    · rcases hm : mapLookup id es.employees with _ | emp2
      · rw [updatePerformance_of_absent es id rating now qf hr hm]
      · rw [updatePerformance_of_ok es id rating now qf emp2 hr hm] at h
        simp at h

/-- C5 witness: Create with a salary below the configured minimum fails and
leaves the empty store exactly as it was. -/
theorem c5_witness :
    (addEmployee newEmployeeSystem empCheap 0 false).2 = newEmployeeSystem :=
  (c5_error_means_unchanged newEmployeeSystem empCheap 0 0 0 false
    GoErr.salaryRangeMsg).1 (by decide)

/-- C7: under either queue condition (full or not), Create and
RecordPerformanceRating return the same result and commit the same employee
and performance maps: pipeline saturation only drops the event (surfacing as
a warning), never as an operation error and never as a different committed
state. -/
theorem c7_queue_never_decides_result (es : EmployeeSystem) (emp : Employee)
    (id : Int) (rating : ℚ) (now : Nat) :
    ((addEmployee es emp now true).1 = (addEmployee es emp now false).1) ∧
    ((addEmployee es emp now true).2.employees =
      (addEmployee es emp now false).2.employees) ∧
    ((addEmployee es emp now true).2.performance =
      (addEmployee es emp now false).2.performance) ∧
    ((updatePerformance es id rating now true).1 =
      (updatePerformance es id rating now false).1) ∧
    ((updatePerformance es id rating now true).2.employees =
      (updatePerformance es id rating now false).2.employees) ∧
    ((updatePerformance es id rating now true).2.performance =
      (updatePerformance es id rating now false).2.performance) := by
  have ha1 : (addEmployee es emp now true).1 = (addEmployee es emp now false).1 := by
    rw [addEmployee_fst, addEmployee_fst]
  have ha2 : (addEmployee es emp now true).2.employees =
      (addEmployee es emp now false).2.employees ∧
      (addEmployee es emp now true).2.performance =
      (addEmployee es emp now false).2.performance := by
    by_cases h : (addEmployee es emp now false).1 = none
    · have ht : (addEmployee es emp now true).1 = none := by rw [ha1]; exact h
      rw [addEmployee_snd_of_ok es emp now true ht, addEmployee_snd_of_ok es emp now false h]
      exact ⟨rfl, rfl⟩
    · have ht : (addEmployee es emp now true).1 ≠ none := by rw [ha1]; exact h
      rw [addEmployee_snd_of_err es emp now true ht, addEmployee_snd_of_err es emp now false h]
      exact ⟨rfl, rfl⟩
  have hu : (updatePerformance es id rating now true).1 =
      (updatePerformance es id rating now false).1 ∧
      (updatePerformance es id rating now true).2.employees =
      (updatePerformance es id rating now false).2.employees ∧
      (updatePerformance es id rating now true).2.performance =
      (updatePerformance es id rating now false).2.performance := by
    by_cases hr : rating < 0 ∨ 5 < rating
    · rw [updatePerformance_of_badRating es id rating now true hr,
        updatePerformance_of_badRating es id rating now false hr]
      exact ⟨rfl, rfl, rfl⟩
    · rcases hm : mapLookup id es.employees with _ | emp2
      · rw [updatePerformance_of_absent es id rating now true hr hm,
          updatePerformance_of_absent es id rating now false hr hm]
        exact ⟨rfl, rfl, rfl⟩
      · rw [updatePerformance_of_ok es id rating now true emp2 hr hm,
          updatePerformance_of_ok es id rating now false emp2 hr hm]
        exact ⟨rfl, rfl, rfl⟩
  exact ⟨ha1, ha2.1, ha2.2, hu.1, hu.2.1, hu.2.2⟩

/-- C2 counterexample: from the empty store, which trivially satisfies the
invariant, Create accepts empAnnP3 - whose Performance field is 3 - and
stores it verbatim while initializing an empty history (lines 137-139), so
the stored performance (3) differs from the mean of the empty history (0):
Create does not preserve the invariant for every record. -/
theorem c2_counterexample :
    perfInvB newEmployeeSystem = true ∧
    (addEmployee newEmployeeSystem empAnnP3 0 true).1 = none ∧
    perfInvB (addEmployee newEmployeeSystem empAnnP3 0 true).2 = false := by
  refine ⟨rfl, by decide, by decide⟩

/-- C2 amended: the invariant (every stored record has Performance equal to the
mean of its history, zero while empty" is preserved by
RecordPerformanceRating unconditionally, and by Create and Update only under
the extra hypothesis that the Performance field of the supplied record already
equals the required mean (zero for Create, which resets the history; the
mean of the existing history for Update, which leaves it alone); Get and
List are read-only and return no state. -/
theorem c2_invariant_preservation (es : EmployeeSystem) (emp : Employee) (id : Int)
    (rating : ℚ) (now : Nat) (qf : Bool) (hinv : perfInvB es = true) :
    (emp.performance = 0 → perfInvB (addEmployee es emp now qf).2 = true) ∧
    (emp.performance = meanOf ((mapLookup emp.id es.performance).getD []) →
      perfInvB (updateEmployee es emp now).2 = true) ∧
    perfInvB (updatePerformance es id rating now qf).2 = true := by
  refine ⟨?_, ?_, ?_⟩
  · intro h0
    by_cases h : (addEmployee es emp now qf).1 = none
    · rw [addEmployee_snd_of_ok es emp now qf h]
      exact perfInvOf_insert_both _ _ _ _ _ hinv (by simp [meanOf, h0])
    · rw [addEmployee_snd_of_err es emp now qf h]
      exact hinv
  · intro h0
    by_cases h : (updateEmployee es emp now).1 = none
    · rw [updateEmployee_snd_of_ok es emp now h]
      exact perfInvOf_insert_emp _ _ _ _ hinv (by simpa using h0)
    · rw [updateEmployee_snd_of_err es emp now h]
      exact hinv
  · by_cases hr : rating < 0 ∨ 5 < rating
    · rw [updatePerformance_of_badRating es id rating now qf hr]
      exact hinv
    · rcases hm : mapLookup id es.employees with _ | emp2
      · rw [updatePerformance_of_absent es id rating now qf hr hm]
        exact hinv
      · rw [updatePerformance_of_ok es id rating now qf emp2 hr hm]
        exact perfInvOf_insert_both _ _ _ _ _ hinv
          (by simp [ratedEmp, meanOf_ratedHist])

/-- C2 witness: the amended preservation applied at the empty store and a
record whose Performance field is zero. -/
theorem c2_witness : perfInvB (addEmployee newEmployeeSystem empAnn 1 false).2 = true :=
  (c2_invariant_preservation newEmployeeSystem empAnn 0 0 1 false rfl).1 rfl

/-- C6 counterexample: in esC6 the queued event is for position A, but the
only stored record has moved to position B, so the match count is zero; the
claim says the prior statistics for A are replaced by a fresh zero-count
snapshot timestamped now, but the code writes stats only under count > 0
(lines 250-255), leaving the stale snapshot (count 3) in place. -/
theorem c6_counterexample :
    selfLearningIter esC6 7 = LearnStep.processed { esC6 with queue := [] } ∧
    mapLookup "A" ({ esC6 with queue := ([] : List Employee) }).positionStats =
      some staleStats ∧
    staleStats ≠ { avgPerformance := 0, employeeCount := 0, totalSalary := 0
                   lastUpdated := 7 } := by
  refine ⟨by decide, rfl, by decide⟩

/-- C6 amended: processing one queued event for a record with position p
recomputes count, mean performance, and total salary over the stored records
of position p and replaces the prior statistics for p with a snapshot
timestamped now - but only when at least one stored record has position p;
when none has, the statistics map is left entirely unchanged (no zero-count
snapshot is written). -/
theorem c6_stats_recompute (es : EmployeeSystem) (emp : Employee)
    (rest : List Employee) (now : Nat)
    (hc : es.ctxCancelled = false) (hq : es.queue = emp :: rest) :
    ∃ es1, selfLearningIter es now = LearnStep.processed es1 ∧
      es1.queue = rest ∧ es1.employees = es.employees ∧
      es1.performance = es.performance ∧
      (positionMembers es emp.position ≠ [] →
        es1.positionStats = mapInsert emp.position
          { avgPerformance :=
              ((positionMembers es emp.position).map fun e => e.performance).sum /
                ((positionMembers es emp.position).length : ℚ)
            employeeCount := (positionMembers es emp.position).length
            totalSalary := ((positionMembers es emp.position).map fun e => e.salary).sum
            lastUpdated := now } es.positionStats) ∧
      (positionMembers es emp.position = [] → es1.positionStats = es.positionStats) := by
  unfold selfLearningIter
  rw [hc, if_neg (by simp), hq]
  dsimp only
  by_cases hmem : positionMembers es emp.position = []
  · rw [if_neg (by simp [hmem])]
    refine ⟨_, rfl, rfl, rfl, rfl, ?_, ?_⟩
    · intro h
      exact absurd hmem h
    · intro _
      rfl
  · rw [if_pos (List.length_pos.mpr hmem)]
    refine ⟨_, rfl, rfl, rfl, rfl, ?_, ?_⟩
    · intro _
      rfl
    · intro h
      exact absurd h hmem

/-- C6 witness: processing the queued Lead event in esC6w. -/
theorem c6_witness : ∃ es1, selfLearningIter esC6w 5 = LearnStep.processed es1 ∧
    es1.queue = [] := by
  obtain ⟨es1, h1, h2, _⟩ := c6_stats_recompute esC6w empAnn [] 5 rfl rfl
  exact ⟨es1, h1, h2⟩

/-- C8: on a record with an empty performance history, two successive
RecordPerformanceRating calls with in-range ratings x then y both succeed and
leave the performance of the record exactly (x+y)/2 (ratings and scores modelled
as exact rationals). -/
theorem c8_two_ratings_mean (es : EmployeeSystem) (id : Int) (x y : ℚ)
    (emp : Employee) (n1 n2 : Nat) (q1 q2 : Bool)
    (hemp : mapLookup id es.employees = some emp)
    (hh : mapLookup id es.performance = some ([] : List ℚ))
    (hx0 : 0 ≤ x) (hx5 : x ≤ 5) (hy0 : 0 ≤ y) (hy5 : y ≤ 5) :
    (updatePerformance es id x n1 q1).1 = none ∧
    (updatePerformance (updatePerformance es id x n1 q1).2 id y n2 q2).1 = none ∧
    (mapLookup id
        (updatePerformance (updatePerformance es id x n1 q1).2 id y n2 q2).2.employees).map
      (fun e => e.performance) = some ((x + y) / 2) := by
  have hrx : ¬(x < 0 ∨ 5 < x) := by
    push_neg
    exact ⟨hx0, hx5⟩
  have hry : ¬(y < 0 ∨ 5 < y) := by
    push_neg
    exact ⟨hy0, hy5⟩
  have hh1 : ratedHist es id x = [x] := by
    unfold ratedHist
    rw [hh]
    rfl
  have h1 := updatePerformance_of_ok es id x n1 q1 emp hrx hemp
  have hperf1 : mapLookup id (updatePerformance es id x n1 q1).2.performance =
      some [x] := by
    rw [h1]
    dsimp only
    rw [← hh1]
    exact mapLookup_mapInsert_self _ _ _
  have hemp1 : mapLookup id (updatePerformance es id x n1 q1).2.employees =
      some (ratedEmp es id x n1 emp) := by
    rw [h1]
    dsimp only
    exact mapLookup_mapInsert_self _ _ _
  have hh2 : ratedHist (updatePerformance es id x n1 q1).2 id y = [x, y] := by
    unfold ratedHist
    rw [hperf1]
    rfl
  have h2 := updatePerformance_of_ok (updatePerformance es id x n1 q1).2 id y n2 q2
    (ratedEmp es id x n1 emp) hry hemp1
  refine ⟨by rw [h1], by rw [h2], ?_⟩
  rw [h2]
  dsimp only
  rw [mapLookup_mapInsert_self]
  unfold ratedEmp
  rw [hh2]
  simp only [Option.map_some]
  simp [List.sum_cons, List.sum_nil]

/-- C8 witness: the spec scenario - Create(101, Ann, Lead, 60000) gives
performance 0, then ratings 4 and 5 give exactly 4.5. -/
theorem c8_witness :
    (getEmployee esAnn 101).2.performance = 0 ∧
    (mapLookup 101
        (updatePerformance (updatePerformance esAnn 101 4 1 false).2 101 5 2
          false).2.employees).map (fun e => e.performance) = some ((9 : ℚ) / 2) := by
  have h := (c8_two_ratings_mean esAnn 101 4 5 { empAnn with lastUpdated := 0 } 1 2
    false false (by decide) (by decide) (by norm_num) (by norm_num) (by norm_num)
    (by norm_num)).2.2
  refine ⟨by decide, ?_⟩
  rw [h]
  norm_num

/-- C10: the compensation bound enforced by Create and Update is the closed
interval from 20000 to 2000000: both endpoints pass validation, anything
strictly outside is rejected with the freshly formatted range error, and the
declared ErrInvalidSalary (citing 30000-500000) is never the returned error
of validateSalary, Create, or Update. -/
theorem c10_salary_bounds (s : ℚ) (es : EmployeeSystem) (emp : Employee)
    (now : Nat) (qf : Bool) :
    (validateSalary s = none ↔ (20000 : ℚ) ≤ s ∧ s ≤ (2000000 : ℚ)) ∧
    validateSalary s ≠ some GoErr.invalidSalaryDeclared ∧
    (addEmployee es emp now qf).1 ≠ some GoErr.invalidSalaryDeclared ∧
    (updateEmployee es emp now).1 ≠ some GoErr.invalidSalaryDeclared ∧
    ((100 : Int) ≤ emp.id → validateName emp.name = none →
      (emp.salary < (20000 : ℚ) ∨ (2000000 : ℚ) < emp.salary) →
      (addEmployee es emp now qf).1 = some GoErr.salaryRangeMsg ∧
      (updateEmployee es emp now).1 = some GoErr.salaryRangeMsg) ∧
    MinSalary = (20000 : ℚ) ∧ MaxSalary = (2000000 : ℚ) := by
  have hMin : MinSalary = (20000 : ℚ) := rfl
  have hMax : MaxSalary = (2000000 : ℚ) := rfl
  refine ⟨?_, ?_, ?_, ?_, ?_, hMin, hMax⟩
  · rw [validateSalary_none_iff, hMin, hMax]
  · intro h
    have h2 := (validateSalary_some_iff s GoErr.invalidSalaryDeclared).mp h
    cases h2.2
  · rw [addEmployee_fst]
    by_cases hid : emp.id < 100
    · simp [hid]
    · rcases hv : validateName emp.name with _ | e
      · by_cases hs : emp.salary < MinSalary ∨ MaxSalary < emp.salary
        · simp [hid, hv, hs]
        · by_cases hd : (mapLookup emp.id es.employees).isSome
          · simp [hid, hv, hs, hd]
          · simp [hid, hv, hs, hd]
      · have he := validateName_eq_some hv
        subst he
        simp [hid, hv]
  · rw [updateEmployee_fst]
    by_cases hid : emp.id < 100
    · simp [hid]
    · rcases hv : validateName emp.name with _ | e
      · by_cases hs : emp.salary < MinSalary ∨ MaxSalary < emp.salary
        · simp [hid, hv, hs]
        · by_cases hd : (mapLookup emp.id es.employees).isSome
          · simp [hid, hv, hs, hd]
          · simp [hid, hv, hs, hd]
      · have he := validateName_eq_some hv
        subst he
        simp [hid, hv]
  · intro hid2 hv hs
    have hid : ¬ emp.id < 100 := not_lt.mpr hid2
    have hs2 : emp.salary < MinSalary ∨ MaxSalary < emp.salary := by
      rw [hMin, hMax]
      exact hs
    rw [addEmployee_fst, updateEmployee_fst]
    exact ⟨by simp [hid, hv, hs2], by simp [hid, hv, hs2]⟩

/-- C10 witness: the lower endpoint 20000 passes validation, and a salary of
10000 makes Create return the formatted range error, not ErrInvalidSalary. -/
theorem c10_witness :
    validateSalary 20000 = none ∧
    (addEmployee newEmployeeSystem empCheap 0 false).1 = some GoErr.salaryRangeMsg := by
  have h := c10_salary_bounds 20000 newEmployeeSystem empCheap 0 false
  refine ⟨h.1.mpr (by norm_num), ?_⟩
  exact (h.2.2.2.2.1 (by decide) (by decide) (by norm_num [empCheap])).1

end EmployeeSys
